import Mathlib

/-!
Verification of the mesh-geometry and MOC-diagnostic core of `e3sm_to_cmip`
(`src/e3sm_to_cmip/mpas.py`), shallowly embedded in Lean 4.

Arrays are modelled as Lean lists or as functions out of `ℕ`; machine floats
are modelled by exact rationals `ℚ` (the properties checked here are algebraic
identities of the code's arithmetic, not rounding facts).  Python strings are
modelled as `List Char`.  Each definition is translated from the corresponding
function of `mpas.py`, keeping its name where Lean allows.
-/

namespace Mpas

/-! ## `_compute_depth` (mpas.py lines 569-599)

The code builds `depth_bnds[k] = (refBottomDepth[k-1] or 0, refBottomDepth[k])`
and `depth[k] = 0.5*(depth_bnds[k,0] + depth_bnds[k,1])`. -/

def compute_depth_bnds (refBottomDepth : List ℚ) : List (ℚ × ℚ) :=
  (List.range refBottomDepth.length).map fun k =>
    (if k = 0 then 0 else refBottomDepth.getD (k - 1) 0, refBottomDepth.getD k 0)

def compute_depth (refBottomDepth : List ℚ) : List ℚ :=
  (compute_depth_bnds refBottomDepth).map fun p => (1 / 2) * (p.1 + p.2)

theorem compute_depth_bnds_length (ref : List ℚ) :
    (compute_depth_bnds ref).length = ref.length := by
  simp [compute_depth_bnds]

theorem compute_depth_length (ref : List ℚ) :
    (compute_depth ref).length = ref.length := by
  simp [compute_depth, compute_depth_bnds]

theorem compute_depth_bnds_getD (ref : List ℚ) (k : ℕ) (hk : k < ref.length) :
    (compute_depth_bnds ref).getD k (0, 0) =
      (if k = 0 then 0 else ref.getD (k - 1) 0, ref.getD k 0) := by
  unfold compute_depth_bnds
  rw [List.getD_eq_getElem?_getD, List.getElem?_map, List.getElem?_range hk]
  simp

theorem compute_depth_getD (ref : List ℚ) (k : ℕ) (hk : k < ref.length) :
    (compute_depth ref).getD k 0 =
      (1 / 2) * (((compute_depth_bnds ref).getD k (0, 0)).1 +
                 ((compute_depth_bnds ref).getD k (0, 0)).2) := by
  unfold compute_depth
  rw [List.getD_eq_getElem?_getD, List.getElem?_map]
  have hk' : k < (compute_depth_bnds ref).length := by
    rw [compute_depth_bnds_length]; exact hk
  rw [List.getD_eq_getElem?_getD, List.getElem?_eq_getElem hk']
  simp

/-! ## `get_cell_masks` (mpas.py lines 182-195)

`cellMask2D = dsMesh.maxLevelCell > 0` and
`cellMask3D = vertIndex < dsMesh.maxLevelCell` with
`vertIndex = arange(nVertLevels)`.  The function performs no validation of
`maxLevelCell` and has no failure path. -/

def get_cell_masks (maxLevelCell : List ℤ) (nVertLevels : ℕ) :
    List Bool × List (List Bool) :=
  (maxLevelCell.map fun m => decide (0 < m),
   maxLevelCell.map fun m => (List.range nVertLevels).map fun lev =>
     decide (Int.ofNat lev < m))

theorem get_cell_masks_2d (maxLevelCell : List ℤ) (nVertLevels : ℕ) (c : ℕ)
    (hc : c < maxLevelCell.length) :
    (get_cell_masks maxLevelCell nVertLevels).1.getD c false =
      decide (0 < maxLevelCell.getD c 0) := by
  unfold get_cell_masks
  rw [List.getD_eq_getElem?_getD, List.getElem?_map,
    List.getElem?_eq_getElem hc, List.getD_eq_getElem?_getD,
    List.getElem?_eq_getElem hc]
  simp

theorem get_cell_masks_3d (maxLevelCell : List ℤ) (nVertLevels : ℕ)
    (c lev : ℕ) (hc : c < maxLevelCell.length) (hlev : lev < nVertLevels) :
    ((get_cell_masks maxLevelCell nVertLevels).2.getD c []).getD lev false =
      decide ((lev : ℤ) < maxLevelCell.getD c 0) := by
  unfold get_cell_masks
  simp only [List.getD_eq_getElem?_getD]
  rw [List.getElem?_map, List.getElem?_eq_getElem hc]
  simp only [Option.map_some', Option.getD_some]
  rw [List.getElem?_map, List.getElem?_range hlev]
  simp

/-- Claim C5: `_compute_depth` returns `depth_bnds` with `depth_bnds[0,0] = 0`,
`depth_bnds[k,0] = refBottomDepth[k-1]` for `k > 0`,
`depth_bnds[k,1] = refBottomDepth[k]`, and
`depth[k] = 0.5*(depth_bnds[k,0] + depth_bnds[k,1])` for all `k`; in
particular `refBottomDepth = [10,20,35]` yields `depth = [5,15,27.5]` and
`depth_bnds = [[0,10],[10,20],[20,35]]`. -/
theorem claim_C5 :
    (∀ (ref : List ℚ) (k : ℕ), k < ref.length →
      ((compute_depth_bnds ref).getD k (0, 0)).1 =
          (if k = 0 then 0 else ref.getD (k - 1) 0) ∧
        ((compute_depth_bnds ref).getD k (0, 0)).2 = ref.getD k 0 ∧
        (compute_depth ref).getD k 0 =
          (1 / 2) * (((compute_depth_bnds ref).getD k (0, 0)).1 +
                     ((compute_depth_bnds ref).getD k (0, 0)).2)) ∧
      compute_depth [10, 20, 35] = [5, 15, 55 / 2] ∧
      compute_depth_bnds [10, 20, 35] = [(0, 10), (10, 20), (20, 35)] := by
  refine ⟨fun ref k hk => ?_, ?_, ?_⟩
  · exact ⟨by rw [compute_depth_bnds_getD ref k hk],
      by rw [compute_depth_bnds_getD ref k hk],
      compute_depth_getD ref k hk⟩
  · norm_num [compute_depth, compute_depth_bnds, List.range_succ]
  · decide

/-- Witness for claim C5 at `refBottomDepth = [10,20,35]`, `k = 1`. -/
theorem claim_C5_witness :
    ((compute_depth_bnds [10, 20, 35]).getD 1 (0, 0)).1 = 10 ∧
      ((compute_depth_bnds [10, 20, 35]).getD 1 (0, 0)).2 = 20 := by
  have h := claim_C5.1 [10, 20, 35] 1 (by norm_num)
  exact ⟨by simpa using h.1, by simpa using h.2.1⟩

/-- Claim C7 counterexample: with `maxLevelCell = [5]` and `nVertLevels = 2`,
the value 5 lies outside `[0, nVertLevels]`, yet `get_cell_masks` does not
fail: it has no validation or error path at all and simply returns the usual
masks computed by the same comparisons. -/
theorem claim_C7_counterexample :
    get_cell_masks [5] 2 = ([true], [[true, true]]) := by decide

/-- Claim C7 as amended: `get_cell_masks` is a pure total function of
`maxLevelCell`, returning `CellMask2D = (maxLevelCell > 0)` and
`CellMask3D = (level < maxLevelCell)` per (cell, level), for every input
including values of `maxLevelCell` outside `[0, nVertLevels]`; it performs no
validation and never raises. -/
theorem claim_C7 :
    ∀ (maxLevelCell : List ℤ) (nVertLevels : ℕ),
      (get_cell_masks maxLevelCell nVertLevels).1.length = maxLevelCell.length ∧
      (∀ c, c < maxLevelCell.length →
        ((get_cell_masks maxLevelCell nVertLevels).1.getD c false = true ↔
          0 < maxLevelCell.getD c 0)) ∧
      (∀ c lev, c < maxLevelCell.length → lev < nVertLevels →
        (((get_cell_masks maxLevelCell nVertLevels).2.getD c []).getD lev false
            = true ↔ Int.ofNat lev < maxLevelCell.getD c 0)) := by
  intro maxLevelCell nVertLevels
  refine ⟨by simp [get_cell_masks], fun c hc => ?_, fun c lev hc hlev => ?_⟩
  · rw [get_cell_masks_2d maxLevelCell nVertLevels c hc]
    exact decide_eq_true_iff
  · rw [get_cell_masks_3d maxLevelCell nVertLevels c lev hc hlev]
    exact decide_eq_true_iff

/-- Witness for (amended) claim C7 at `maxLevelCell = [2, 0]`,
`nVertLevels = 2`, cell 0, level 1. -/
theorem claim_C7_witness :
    ((get_cell_masks [2, 0] 2).1.getD 0 false = true ↔
      0 < ([2, 0] : List ℤ).getD 0 0) ∧
    (((get_cell_masks [2, 0] 2).2.getD 0 []).getD 1 false = true ↔
      Int.ofNat 1 < ([2, 0] : List ℤ).getD 0 0) :=
  ⟨(claim_C7 [2, 0] 2).2.1 0 (by norm_num),
   (claim_C7 [2, 0] 2).2.2 0 1 (by norm_num) (by norm_num)⟩

/-! ## `_compute_moc_time_series`: vertical integration (mpas.py lines 663-671)

`mocSlice = numpy.zeros((nTime, nVertLevels+1))` followed by
`mocSlice[:, 1:] = transport.cumsum(dim='nVertLevels')`.  With numpy's
`cumsum[j] = Σ_{k ≤ j}`, the interface value at `j` is the sum of the
transports strictly above `j`. -/

def cumsumLev (f : ℕ → ℚ) (j : ℕ) : ℚ := ∑ k in Finset.range (j + 1), f k

def mocSlice (transport : ℕ → ℕ → ℚ) (t j : ℕ) : ℚ :=
  if j = 0 then 0 else cumsumLev (transport t) (j - 1)

/-- Claim C2: for every transport series and time `t`, the vertically
integrated streamfunction at interfaces satisfies `mocAtInterface[t,0] = 0`
and `mocAtInterface[t,j] = mocAtInterface[t,j-1] + transport[t,j-1]` for
`j ≥ 1`; the top interface value is a hard zero before the corner-averaging
stage. -/
theorem claim_C2 :
    ∀ (transport : ℕ → ℕ → ℚ) (t : ℕ),
      mocSlice transport t 0 = 0 ∧
      ∀ j, 1 ≤ j →
        mocSlice transport t j =
          mocSlice transport t (j - 1) + transport t (j - 1) := by
  intro transport t
  refine ⟨rfl, fun j hj => ?_⟩
  obtain ⟨j, rfl⟩ := Nat.exists_eq_add_of_le hj
  rcases Nat.eq_zero_or_pos j with hj0 | hj0
  · subst hj0
    simp [mocSlice, cumsumLev]
  · have h1 : 1 + j ≠ 0 := by omega
    have h2 : 1 + j - 1 = j := by omega
    have h3 : j ≠ 0 := by omega
    have h4 : j - 1 + 1 = j := by omega
    rw [h2]
    simp only [mocSlice, cumsumLev, if_neg h1, if_neg h3, h2, h4]
    rw [Finset.sum_range_succ]

/-- Witness for claim C2 at `transport t k = k + 1`, `t = 0`, `j = 2`. -/
theorem claim_C2_witness :
    mocSlice (fun _ k => (k : ℚ) + 1) 0 0 = 0 ∧
      mocSlice (fun _ k => (k : ℚ) + 1) 0 2 =
        mocSlice (fun _ k => (k : ℚ) + 1) 0 1 + ((1 : ℚ) + 1) :=
  ⟨(claim_C2 (fun _ k => (k : ℚ) + 1) 0).1,
   by simpa using (claim_C2 (fun _ k => (k : ℚ) + 1) 0).2 2 (by norm_num)⟩

/-! ## `_compute_moc_time_series`: regional transport (mpas.py lines 643-658)

For each named region: `edgeIndices = dsMask.transectEdgeGlobalIDs`;
`mask = edgeIndices > 0`; `edgeIndices = edgeIndices[mask] - 1`;
`transport = (v*h*dv*edgeSigns).sum(dim='maxEdgesInTransect')` where `v`,
`h`, `dv`, `edgeSigns` are gathered at `edgeIndices`. -/

structure TransectData where
  transectEdgeGlobalIDs : List ℤ
  transectEdgeMaskSigns : ℕ → ℚ
  dvEdge : ℕ → ℚ
  normalVelocity : ℕ → ℕ → ℕ → ℚ
  layerThicknessEdge : ℕ → ℕ → ℕ → ℚ

def selectedEdges (ids : List ℤ) : List ℕ :=
  (ids.filter fun i => decide (0 < i)).map fun i => (i - 1).toNat

def region_transport (d : TransectData) (t k : ℕ) : ℚ :=
  ((selectedEdges d.transectEdgeGlobalIDs).map fun e =>
    d.normalVelocity t e k * d.layerThicknessEdge t e k * d.dvEdge e *
      d.transectEdgeMaskSigns e).sum

/-- Claim C9: a region whose transect-edge list resolves to zero edges after
discarding padding sentinels (`edgeGlobalID ≤ 0`) gets an identically-zero
transport series without error, and in general
`transport[t,k] = Σ_edges sign(e)·v(t,e,k)·h(t,e,k)·dv(e)` over the selected
edges. -/
theorem claim_C9 :
    ∀ (d : TransectData) (t k : ℕ),
      ((∀ x ∈ d.transectEdgeGlobalIDs, x ≤ 0) → region_transport d t k = 0) ∧
      region_transport d t k =
        ((selectedEdges d.transectEdgeGlobalIDs).map fun e =>
          d.transectEdgeMaskSigns e * d.normalVelocity t e k *
            d.layerThicknessEdge t e k * d.dvEdge e).sum := by
  intro d t k
  constructor
  · intro hall
    have hnil : d.transectEdgeGlobalIDs.filter (fun i => decide (0 < i)) = [] := by
      rw [List.filter_eq_nil_iff]
      intro a ha
      simpa using not_lt.mpr (hall a ha)
    simp [region_transport, selectedEdges, hnil]
  · unfold region_transport
    congr 1
    exact List.map_congr_left fun e _ => by ring

/-- Witness for claim C9 at a transect list made only of sentinels. -/
theorem claim_C9_witness :
    region_transport
      { transectEdgeGlobalIDs := [0, -1, 0],
        transectEdgeMaskSigns := fun _ => 1,
        dvEdge := fun _ => 1,
        normalVelocity := fun _ _ _ => 1,
        layerThicknessEdge := fun _ _ _ => 1 } 0 0 = 0 :=
  (claim_C9
      { transectEdgeGlobalIDs := [0, -1, 0],
        transectEdgeMaskSigns := fun _ => 1,
        dvEdge := fun _ => 1,
        normalVelocity := fun _ _ _ => 1,
        layerThicknessEdge := fun _ _ _ => 1 } 0 0).1 (by decide)

/-! ## `remap` (mpas.py lines 22-76)

Control-flow model of the temp-file lifecycle.  `remap` obtains two distinct
temporary paths, writes the dataset to the first (`write_netcdf`), runs the
`ncremap` subprocess which produces the second, and then — only after the
`if proc.returncode: raise CalledProcessError(...)` check — executes
`os.remove(inFileName); os.remove(outFileName)`.  There is no `try/finally`;
the removals are plain statements after the raise.  The model takes the
subprocess's return code and yields (completed normally?, temp files still on
disk). -/

def inFileName : String := "tmpA.nc"

def outFileName : String := "tmpB.nc"

def remap_run (returncode : ℕ) : Bool × List String :=
  let fs := [inFileName, outFileName]
  if returncode ≠ 0 then
    (false, fs)
  else
    (true, (fs.erase inFileName).erase outFileName)

/-- Claim C8 counterexample: when the subprocess exits with status 1, `remap`
raises before reaching the `os.remove` calls, so both uniquely-named temporary
files are left on disk — the claim that both are removed on every exit path
fails on the failure path. -/
theorem claim_C8_counterexample :
    remap_run 1 = (false, [inFileName, outFileName]) := by decide

/-- Claim C8 as amended: `remap` removes both temporary files only on the
success path; a non-zero exit status is raised as a fatal error with no retry
before any cleanup runs, leaving both temporary files on disk. -/
theorem claim_C8 :
    ∀ returncode : ℕ,
      (returncode = 0 → remap_run returncode = (true, [])) ∧
      (returncode ≠ 0 →
        remap_run returncode = (false, [inFileName, outFileName])) := by
  intro returncode
  constructor
  · intro h
    subst h
    decide
  · intro h
    simp [remap_run, h]

/-- Witness for (amended) claim C8 at return codes 0 and 1. -/
theorem claim_C8_witness :
    remap_run 0 = (true, []) ∧
      remap_run 1 = (false, [inFileName, outFileName]) :=
  ⟨(claim_C8 0).1 rfl, (claim_C8 1).2 (by norm_num)⟩

/-! ## `_compute_moc_time_series`: the synthesized Global region
(mpas.py lines 614-641 and 696-699)

`transport['Global'] = numpy.zeros((nTime, nVertLevels))`,
`cellMasks['Global'] = numpy.ones(nCells)`,
`regionNames = ['Global'] + [names from dsMasks]`; the `mocs` dict is filled
by iterating `regionNames` in order (Python dicts preserve insertion order)
and concatenated along the new leading `basin` dimension. -/

def transport_Global (_t _k : ℕ) : ℚ := 0

def cellMask_Global (_c : ℕ) : ℚ := 1

def region_names (namesIn : List String) : List String := "Global" :: namesIn

def stacked_mocs {α : Type} (namesIn : List String) (mocFor : String → α) :
    List α :=
  (region_names namesIn).map mocFor

/-- Claim C4 counterexample: with `maxLevelCell = [0]` (a single invalid
cell), the Global region's cell mask marks cell 0 as a member
(`cellMasks['Global'][0] == 1`, from `numpy.ones(nCells)`), while `CellMask2D`
(`maxLevelCell > 0`) marks it invalid — so the Global mask does not equal the
set of valid cells. -/
theorem claim_C4_counterexample :
    cellMask_Global 0 = 1 ∧ (get_cell_masks [0] 3).1.getD 0 false = false := by
  constructor
  · rfl
  · decide

/-- Claim C4 as amended: the synthesized Global region has identically-zero
transport at every time and level, its cell-membership mask is all ones over
all cells (independently of `maxLevelCell`, so it equals `CellMask2D` only
when every cell is valid), and in the basin-stacked result Global is at basin
index 0 with the named regions following in input order. -/
theorem claim_C4 :
    ∀ (namesIn : List String) (t k c : ℕ) (mocFor : String → List ℚ),
      transport_Global t k = 0 ∧
      cellMask_Global c = 1 ∧
      (region_names namesIn).getD 0 "" = "Global" ∧
      (∀ i, i < namesIn.length →
        (region_names namesIn).getD (i + 1) "" = namesIn.getD i "") ∧
      (stacked_mocs namesIn mocFor).getD 0 [] = mocFor "Global" ∧
      (∀ i, i < namesIn.length →
        (stacked_mocs namesIn mocFor).getD (i + 1) [] =
          mocFor (namesIn.getD i "")) := by
  intro namesIn t k c mocFor
  refine ⟨rfl, rfl, rfl, fun i hi => rfl, rfl, fun i hi => ?_⟩
  unfold stacked_mocs region_names
  rw [List.getD_eq_getElem?_getD, List.getElem?_map]
  simp only [List.getElem?_cons_succ]
  rw [List.getElem?_eq_getElem hi, List.getD_eq_getElem?_getD,
    List.getElem?_eq_getElem hi]
  simp

/-- Witness for (amended) claim C4 at one named region. -/
theorem claim_C4_witness :
    (region_names ["Atlantic"]).getD 1 "" = "Atlantic" ∧
      (stacked_mocs ["Atlantic"] fun _ => [(1 : ℚ)]).getD 1 [] = [(1 : ℚ)] := by
  have h := claim_C4 ["Atlantic"] 0 0 0 fun _ => [(1 : ℚ)]
  exact ⟨h.2.2.2.1 0 (by norm_num), h.2.2.2.2.2 0 (by norm_num)⟩

/-! ## `interp_vertex_to_cell` (mpas.py lines 452-486)

The code shifts the 1-based connectivity to 0-based
(`verticesOnCell = dsMesh.verticesOnCell.values - 1`,
`cellsOnVertex = dsMesh.cellsOnVertex.values - 1`) and then, per neighbor
slot, keeps `mask1 = vertices > 0` — a comparison against the *shifted*
values, so both the padding sentinel (now `-1`) and the valid vertex with
0-based index 0 (global ID 1) are dropped.  Accumulated kite areas are
divided by `areaCell` and the field gathered at `verticesOnCell - 1` (with
numpy's negative-index wraparound) is contracted against the weights. -/

structure InterpMesh where
  nCells : ℕ
  nVertices : ℕ
  maxEdges : ℕ
  vertexDegree : ℕ
  verticesOnCell : ℕ → ℕ → ℤ
  cellsOnVertex : ℕ → ℕ → ℤ
  kiteAreasOnVertex : ℕ → ℕ → ℚ
  areaCell : ℕ → ℚ

def wrapIdx (n : ℕ) (v : ℤ) : ℕ := (if v < 0 then v + n else v).toNat

def vertex0 (m : InterpMesh) (c s : ℕ) : ℤ := m.verticesOnCell c s - 1

def interp_weight (m : InterpMesh) (c s : ℕ) : ℚ :=
  (∑ d in Finset.range m.vertexDegree,
    if 0 < vertex0 m c s ∧
        m.cellsOnVertex (wrapIdx m.nVertices (vertex0 m c s)) d - 1 = (c : ℤ)
    then m.kiteAreasOnVertex (wrapIdx m.nVertices (vertex0 m c s)) d
    else 0) / m.areaCell c

def interp_vertex_to_cell (m : InterpMesh) (f : ℕ → ℚ) (c : ℕ) : ℚ :=
  ∑ s in Finset.range m.maxEdges,
    f (wrapIdx m.nVertices (vertex0 m c s)) * interp_weight m c s

/-- A single triangular cell whose vertex ring is the (valid) global vertex
IDs `[1, 2, 3]`: each vertex's kite toward cell 1 has area 1 and
`areaCell = 3`, so the kites exactly tile the cell. -/
def exInterpMesh : InterpMesh where
  nCells := 1
  nVertices := 3
  maxEdges := 3
  vertexDegree := 3
  verticesOnCell := fun _ s => (s : ℤ) + 1
  cellsOnVertex := fun _ d => if d = 0 then 1 else 0
  kiteAreasOnVertex := fun _ d => if d = 0 then 1 else 0
  areaCell := fun _ => 3

/-- Claim C1 fails on the code: on `exInterpMesh` the field that is 1.0 on
every valid vertex interpolates to `2/3`, not `1`, at the (valid) cell 0, and
the weights sum to `2/3`.  The slot holding global vertex ID 1 is discarded
because `mask1 = vertices > 0` is evaluated after the `- 1` shift, so its
kite area never accumulates; the spec's partition-of-unity property (and its
own rule that only sentinel slots are dropped) identifies this as an
off-by-one slip in the code. -/
theorem claim_C1_code_eval :
    interp_vertex_to_cell exInterpMesh (fun _ => 1) 0 = 2 / 3 ∧
      (∑ s in Finset.range exInterpMesh.maxEdges,
        interp_weight exInterpMesh 0 s) = 2 / 3 ∧
      (2 / 3 : ℚ) ≠ 1 := by
  refine ⟨?_, ?_, by norm_num⟩
  · norm_num [interp_vertex_to_cell, interp_weight, vertex0, wrapIdx,
      exInterpMesh, Finset.sum_range_succ]
  · norm_num [interp_weight, vertex0, wrapIdx, exInterpMesh,
      Finset.sum_range_succ]

/-! ## `_compute_moc_time_series`: latitude binning and masking
(mpas.py lines 673-694)

Fixed 1°-wide bins: `lat = arange(-90, 91, 1)` gives
`lat_bnds[i] = (-90 + i, -90 + i + 1)`.  For each bin,
`mask = (cellMasks == 1) & (latCell >= lat_bnds[i,0]) & (latCell < lat_bnds[i,1])`,
`binCounts[i] = count_nonzero(mask)`, and
`mocSlices[i+1] = mocSlices[i] + (vertVelocityTop[:, mask, :] * areaCell[mask]).sum`.
After corner averaging, `moc = moc.where(binCounts > 0)` turns every value in
a bin with zero members into NaN (modelled as `none`). -/

structure BinMesh where
  nCells : ℕ
  latCell : ℕ → ℚ
  areaCell : ℕ → ℚ
  cellMask : ℕ → ℚ
  vertVelocityTop : ℕ → ℕ → ℕ → ℚ

def lat_lo (i : ℕ) : ℚ := -90 + i

def lat_hi (i : ℕ) : ℚ := -90 + i + 1

def binMemberB (b : BinMesh) (i c : ℕ) : Bool :=
  decide (b.cellMask c = 1) && decide (lat_lo i ≤ b.latCell c) &&
    decide (b.latCell c < lat_hi i)

def binCount (b : BinMesh) (i : ℕ) : ℕ :=
  ((Finset.range b.nCells).filter fun c => binMemberB b i c = true).card

def binFlux (b : BinMesh) (i t j : ℕ) : ℚ :=
  ∑ c in (Finset.range b.nCells).filter fun c => binMemberB b i c = true,
    b.vertVelocityTop t c j * b.areaCell c

def mocTop (b : BinMesh) (transport : ℕ → ℕ → ℚ) (t j : ℕ) : ℕ → ℚ
  | 0 => mocSlice transport t j
  | i + 1 => mocTop b transport t j i + binFlux b i t j

def moc_avg (b : BinMesh) (transport : ℕ → ℕ → ℚ) (t k i : ℕ) : ℚ :=
  (1 / 4) * (mocTop b transport t k i + mocTop b transport t k (i + 1) +
    mocTop b transport t (k + 1) i + mocTop b transport t (k + 1) (i + 1))

def moc_masked (b : BinMesh) (transport : ℕ → ℕ → ℚ) (t k i : ℕ) :
    Option ℚ :=
  if 0 < binCount b i then some (moc_avg b transport t k i) else none

/-- Claim C3: for every basin input and every latitude bin `i` with
`binCount[i] = 0` (no member cells of the basin's mask with `latCell` inside
bin `i`'s bounds), the streamfunction output at that bin is undefined
(`none`, the model of NaN from `where`) at every depth and time — never a
numeric value, in particular never a numeric zero. -/
theorem claim_C3 :
    ∀ (b : BinMesh) (transport : ℕ → ℕ → ℚ) (t k i : ℕ),
      binCount b i = 0 → moc_masked b transport t k i = none := by
  intro b transport t k i h
  simp [moc_masked, h]

/-- Witness for claim C3: a one-cell basin whose cell sits at latitude 0, so
bin 0 (latitudes `[-90, -89)`) is empty. -/
theorem claim_C3_witness :
    moc_masked
      { nCells := 1, latCell := fun _ => 0, areaCell := fun _ => 1,
        cellMask := fun _ => 1, vertVelocityTop := fun _ _ _ => 1 }
      (fun _ _ => 1) 0 0 0 = none := by
  refine claim_C3 _ (fun _ _ => 1) 0 0 0 ?_
  norm_num [binCount, binMemberB, lat_lo, lat_hi, Finset.range_one,
    Finset.filter_singleton]

/-! ## `_parse_date_string` (mpas.py lines 513-554)

Python strings are modelled as `List Char`.  `str.replace` is a map,
`str.strip` drops the spaces at both ends (the only whitespace occurring in
these timestamp strings), `str.split(sep)` splits on every occurrence of
`sep` keeping empty pieces, and `int(...)` is modelled on nonnegative digit
strings (the only shape these date fields take), failing otherwise as the
Python call would.  Tuple unpacking of a split with the wrong number of
pieces is Python's `ValueError`, modelled as `none`. -/

def pyReplace (a b : Char) (s : List Char) : List Char :=
  s.map fun c => if c = a then b else c

def pyStrip (s : List Char) : List Char :=
  ((s.dropWhile fun c => c = ' ').reverse.dropWhile fun c => c = ' ').reverse

def pySplit (sep : Char) : List Char → List (List Char)
  | [] => [[]]
  | c :: cs =>
    if c = sep then [] :: pySplit sep cs
    else
      match pySplit sep cs with
      | [] => [[c]]
      | t :: ts => (c :: t) :: ts

def parseNat (s : List Char) : Option ℕ :=
  if s ≠ [] ∧ s.all (fun c => c.isDigit)
  then some (s.foldl (fun n c => 10 * n + (c.toNat - 48)) 0)
  else none

def parseYmdPart (ymd : List Char) : Option (ℕ × ℕ × ℕ) :=
  if ymd.contains '-' then
    match pySplit '-' ymd with
    | [a, b, c] => do
        let y ← parseNat a
        let mo ← parseNat b
        let d ← parseNat c
        pure (y, mo, d)
    | _ => none
  else do
    let d ← parseNat ymd
    pure (0, 1, d)

def parseHmsPart (hms0 : List Char) : Option (ℕ × ℕ × ℕ) :=
  let hms := pyReplace '.' ':' hms0
  if hms.contains ':' then
    match pySplit ':' hms with
    | [a, b, c] => do
        let h ← parseNat a
        let mi ← parseNat b
        let sec ← parseNat c
        pure (h, mi, sec)
    | _ => none
  else do
    let sec ← parseNat hms
    pure (0, 0, sec)

def parse_date_string (s0 : List Char) :
    Option (ℕ × ℕ × ℕ × ℕ × ℕ × ℕ) := do
  let s := pyStrip (pyReplace '_' ' ' s0)
  let (ymd, hms) ←
    if s.contains ' ' then
      match pySplit ' ' s with
      | [a, b] => some (a, b)
      | _ => none
    else if s.contains '-' then
      some (if (pySplit '-' s).length = 2 then s ++ ("-01".toList) else s,
        "00:00:00".toList)
    else
      some ("0001-01-01".toList, s)
  let (y, mo, d) ← parseYmdPart ymd
  let (h, mi, sec) ← parseHmsPart hms
  pure (y, mo, d, h, mi, sec)

/-- Claim C6 counterexample: a bare integer with no space is *not* parsed as
a bare day-count with `year = 0, month = 1`; the no-space, no-dash branch
sets `ymd = '0001-01-01'` and treats the whole token as the seconds field, so
`"5"` parses to `(1,1,1,0,0,5)` rather than a day 5 of year 0, month 1. -/
theorem claim_C6_counterexample :
    parse_date_string ("5".toList) = some (1, 1, 1, 0, 0, 5) ∧
      (some (1, 1, 1, 0, 0, 5) :
          Option (ℕ × ℕ × ℕ × ℕ × ℕ × ℕ)) ≠ some (0, 1, 5, 0, 0, 0) := by
  constructor
  · decide
  · decide

/-- Claim C6 as amended: `_parse_date_string` tolerates
`"YYYY-MM-DD_HH:MM:SS"`, `"YYYY-MM"` and `"YYYY-MM-DD"`:
`"2001-03-05_00:00:00"` yields `(2001,3,5,0,0,0)` and `"1990-01"` yields
`(1990,1,1,0,0,0)`; a bare integer with no space is interpreted as a seconds
count on the date `0001-01-01` (so `"5"` yields `(1,1,1,0,0,5)`), while the
bare day-count reading with `year = 0, month = 1` applies only to a dash-free
date token followed by a time token, as in `"5_00:00:00"` which yields
`(0,1,5,0,0,0)`. -/
theorem claim_C6 :
    parse_date_string ("2001-03-05_00:00:00".toList) =
        some (2001, 3, 5, 0, 0, 0) ∧
      parse_date_string ("1990-01".toList) = some (1990, 1, 1, 0, 0, 0) ∧
      parse_date_string ("1990-01-02".toList) = some (1990, 1, 2, 0, 0, 0) ∧
      parse_date_string ("5".toList) = some (1, 1, 1, 0, 0, 5) ∧
      parse_date_string ("5_00:00:00".toList) = some (0, 1, 5, 0, 0, 0) := by
  refine ⟨?_, ?_, ?_, ?_, ?_⟩ <;> decide

/-! ## `add_time` (mpas.py lines 79-114)

`xtimeStart = ['{}_00:00:00'.format(xtime[0:10]) for xtime in xtimeStart]`
truncates each start timestamp to its first 10 characters and appends
`_00:00:00`; the end timestamps go to `_string_to_days_since_date`
unmodified.  `daysStart/daysEnd` add `offsetYears*365`, and
`time_bnds[i] = (daysStart[i], daysEnd[i])`. -/

def fixStart (s : List Char) : List Char := s.take 10 ++ "_00:00:00".toList

/-- Modelled from the spec: the conversion done by the external library call
`netCDF4.date2num(dates, 'days since <ref>', calendar='noleap')`
(`_datetime_to_days`, not code of this repository) — on the fixed 365-day
no-leap calendar, the difference of day numbers plus the fractional time of
day. -/
def monthStartNoLeap (m : ℕ) : ℕ :=
  [0, 31, 59, 90, 120, 151, 181, 212, 243, 273, 304, 334].getD (m - 1) 0

def noleapDayNumber (y mo d : ℕ) : ℤ :=
  365 * (y : ℤ) + monthStartNoLeap mo + d

def date_to_days (tup : ℕ × ℕ × ℕ × ℕ × ℕ × ℕ) (ref : ℕ × ℕ × ℕ) : ℚ :=
  ((noleapDayNumber tup.1 tup.2.1 tup.2.2.1 -
      noleapDayNumber ref.1 ref.2.1 ref.2.2 : ℤ) : ℚ) +
    ((tup.2.2.2.1 * 3600 + tup.2.2.2.2.1 * 60 + tup.2.2.2.2.2 : ℕ) : ℚ) / 86400

def string_to_days (s : List Char) (ref : ℕ × ℕ × ℕ) : Option ℚ :=
  (parse_date_string s).map fun t => date_to_days t ref

def add_time_bnds (starts ends : List (List Char)) (ref : ℕ × ℕ × ℕ)
    (offsetYears : ℤ) : List (Option ℚ × Option ℚ) :=
  List.zipWith (fun s e =>
    ((string_to_days (fixStart s) ref).map fun d => (offsetYears : ℚ) * 365 + d,
     (string_to_days e ref).map fun d => (offsetYears : ℚ) * 365 + d))
    starts ends

theorem pyReplace_append (a b : Char) (xs ys : List Char) :
    pyReplace a b (xs ++ ys) = pyReplace a b xs ++ pyReplace a b ys :=
  List.map_append _ xs ys

theorem pyReplace_eq_self (a b : Char) (xs : List Char)
    (h : ∀ c ∈ xs, c ≠ a) : pyReplace a b xs = xs := by
  induction xs with
  | nil => rfl
  | cons c t ih =>
      have hc : c ≠ a := h c (by simp)
      have ht : ∀ x ∈ t, x ≠ a := fun x hx => h x (by simp [hx])
      simp [pyReplace, hc] at ih ⊢
      exact ih ht

theorem pyStrip_eq_self (xs : List Char)
    (h1 : ∀ c, xs.head? = some c → c ≠ ' ')
    (h2 : ∀ c, xs.reverse.head? = some c → c ≠ ' ') :
    pyStrip xs = xs := by
  have front : ∀ (l : List Char), (∀ c, l.head? = some c → c ≠ ' ') →
      (l.dropWhile fun c => c = ' ') = l := by
    intro l hl
    cases l with
    | nil => rfl
    | cons c t =>
        rw [List.dropWhile_cons]
        have hc : c ≠ ' ' := hl c rfl
        simp [hc]
  unfold pyStrip
  rw [front xs h1, front xs.reverse h2, List.reverse_reverse]

theorem pySplit_sep_append (sep : Char) (ys : List Char) :
    ∀ xs : List Char, (∀ c ∈ xs, c ≠ sep) →
      pySplit sep (xs ++ sep :: ys) = xs :: pySplit sep ys := by
  intro xs
  induction xs with
  | nil => intro _; simp [pySplit]
  | cons c t ih =>
      intro h
      have hc : c ≠ sep := h c (by simp)
      have ht : ∀ x ∈ t, x ≠ sep := fun x hx => h x (by simp [hx])
      rw [List.cons_append]
      simp only [pySplit, if_neg hc, ih ht]

theorem parse_date_string_fixStart (s : List Char) (hne : s.take 10 ≠ [])
    (hch : ∀ c ∈ s.take 10, c ≠ '_' ∧ c ≠ ' ') :
    parse_date_string (fixStart s) =
      (parseYmdPart (s.take 10)).map fun v => (v.1, v.2.1, v.2.2, 0, 0, 0) := by
  have hrep : pyReplace '_' ' ' (fixStart s) =
      s.take 10 ++ (' ' :: "00:00:00".toList) := by
    rw [fixStart, pyReplace_append,
      pyReplace_eq_self _ _ _ (fun c hc => (hch c hc).1)]
    rfl
  have hstrip : pyStrip (s.take 10 ++ (' ' :: "00:00:00".toList)) =
      s.take 10 ++ (' ' :: "00:00:00".toList) := by
    apply pyStrip_eq_self
    · intro c hc
      obtain ⟨a, t, hat⟩ := List.exists_cons_of_ne_nil hne
      have ha : a ∈ s.take 10 := by rw [hat]; exact List.mem_cons_self a t
      rw [hat, List.cons_append, List.head?_cons] at hc
      obtain rfl : a = c := by injection hc
      exact (hch a ha).2
    · intro c hc
      rw [List.reverse_append] at hc
      have hrev : (' ' :: ("00:00:00".toList)).reverse =
          '0' :: ("0:00:00 ".toList) := by decide
      rw [hrev, List.cons_append, List.head?_cons] at hc
      obtain rfl : '0' = c := by injection hc
      decide
  have hcon : ((s.take 10 ++ (' ' :: "00:00:00".toList)).contains ' ')
      = true := by
    simp [List.contains, List.elem_iff]
  have hsplit : pySplit ' ' (s.take 10 ++ (' ' :: "00:00:00".toList)) =
      [s.take 10, "00:00:00".toList] := by
    rw [pySplit_sep_append ' ' _ _ (fun c hc => (hch c hc).2)]
    have h0 : pySplit ' ' ("00:00:00".toList) = ["00:00:00".toList] := by decide
    rw [h0]
  unfold parse_date_string
  rw [hrep, hstrip]
  simp only [hcon, if_true, hsplit]
  cases hy : parseYmdPart (s.take 10) with
  | none => simp [hy]
  | some v =>
      obtain ⟨y, mo, dd⟩ := v
      have hhms : parseHmsPart ['0', '0', ':', '0', '0', ':', '0', '0'] =
          some (0, 0, 0) := by decide
      simp [hy, hhms]

theorem add_time_bnds_fst (ref : ℕ × ℕ × ℕ) (off : ℤ) :
    ∀ (starts ends : List (List Char)), starts.length = ends.length →
      (add_time_bnds starts ends ref off).map Prod.fst =
        starts.map fun s => (string_to_days (fixStart s) ref).map
          fun d => (off : ℚ) * 365 + d := by
  intro starts
  induction starts with
  | nil => intro ends _; rfl
  | cons a t ih =>
      intro ends h
      cases ends with
      | nil => simp at h
      | cons b u =>
          have h' : t.length = u.length := by simpa using h
          simp only [add_time_bnds, List.zipWith_cons_cons, List.map_cons]
            at ih ⊢
          rw [ih u h']

theorem add_time_bnds_snd (ref : ℕ × ℕ × ℕ) (off : ℤ) :
    ∀ (starts ends : List (List Char)), starts.length = ends.length →
      (add_time_bnds starts ends ref off).map Prod.snd =
        ends.map fun e => (string_to_days e ref).map
          fun d => (off : ℚ) * 365 + d := by
  intro starts
  induction starts with
  | nil =>
      intro ends h
      cases ends with
      | nil => rfl
      | cons b u => simp at h
  | cons a t ih =>
      intro ends h
      cases ends with
      | nil => simp at h
      | cons b u =>
          have h' : t.length = u.length := by simpa using h
          simp only [add_time_bnds, List.zipWith_cons_cons, List.map_cons]
            at ih ⊢
          rw [ih u h']

/-- Claim C10: `add_time` truncates every start timestamp to its first 10
characters and substitutes `00:00:00` before converting to days since the
reference date — so the start conversion depends only on the first 10
characters (any recorded hour/minute/second is discarded), every successfully
parsed start has time-of-day `00:00:00`, whose no-leap day count is exactly
the whole-day number (bounds start at midnight), while end timestamps are
converted unmodified. -/
theorem claim_C10 :
    (∀ (s₁ s₂ : List Char) (ref : ℕ × ℕ × ℕ), s₁.take 10 = s₂.take 10 →
      string_to_days (fixStart s₁) ref = string_to_days (fixStart s₂) ref) ∧
    (∀ s : List Char, s.take 10 ≠ [] →
      (∀ c ∈ s.take 10, c ≠ '_' ∧ c ≠ ' ') →
      parse_date_string (fixStart s) =
        (parseYmdPart (s.take 10)).map fun v =>
          (v.1, v.2.1, v.2.2, 0, 0, 0)) ∧
    (∀ (y mo d : ℕ) (ref : ℕ × ℕ × ℕ),
      date_to_days (y, mo, d, 0, 0, 0) ref =
        ((noleapDayNumber y mo d -
            noleapDayNumber ref.1 ref.2.1 ref.2.2 : ℤ) : ℚ)) ∧
    (∀ (starts ends : List (List Char)) (ref : ℕ × ℕ × ℕ) (off : ℤ),
      starts.length = ends.length →
      (add_time_bnds starts ends ref off).map Prod.fst =
        starts.map (fun s => (string_to_days (fixStart s) ref).map
          fun d => (off : ℚ) * 365 + d) ∧
      (add_time_bnds starts ends ref off).map Prod.snd =
        ends.map fun e => (string_to_days e ref).map
          fun d => (off : ℚ) * 365 + d) := by
  refine ⟨?_, parse_date_string_fixStart, ?_, ?_⟩
  · intro s₁ s₂ ref h
    have : fixStart s₁ = fixStart s₂ := by rw [fixStart, fixStart, h]
    rw [string_to_days, this, string_to_days]
  · intro y mo d ref
    simp [date_to_days]
  · intro starts ends ref off h
    exact ⟨add_time_bnds_fst ref off starts ends h,
      add_time_bnds_snd ref off starts ends h⟩

/-- Witness for claim C10 at the start timestamp `"2001-03-05_17:45:01"`
(whose recorded time of day is discarded) against `"2001-03-05_00:00:00"`,
reference date `0001-01-01`. -/
theorem claim_C10_witness :
    string_to_days (fixStart ("2001-03-05_17:45:01".toList)) (1, 1, 1) =
        string_to_days (fixStart ("2001-03-05_00:00:00".toList)) (1, 1, 1) ∧
      parse_date_string (fixStart ("2001-03-05_17:45:01".toList)) =
        (parseYmdPart (("2001-03-05_17:45:01".toList).take 10)).map fun v =>
          (v.1, v.2.1, v.2.2, 0, 0, 0) := by
  constructor
  · exact claim_C10.1 ("2001-03-05_17:45:01".toList)
      ("2001-03-05_00:00:00".toList) (1, 1, 1) (by decide)
  · exact claim_C10.2.1 ("2001-03-05_17:45:01".toList) (by decide) (by decide)

end Mpas
